import Mathlib

/-!
A shallow embedding of `src/typer.ts`: the `typing` transformation from a parsed
CSS value-definition-syntax entity tree to a deduplicated, ordered list of type
descriptors, together with the construction of the basic-data-type catalog.

Two genuinely external ingredients are abstracted as parameters of an `Env`:

* the JavaScript builtin round-trip test `String(Number(v)) === v` together with
  the parsed numeric value (field `roundtrip`), and
* the basic-data-type catalog built from the external `mdn-data` tables
  (field `catalog`).

All structural theorems are proved for every `Env`; concrete scenarios
instantiate `roundtrip` with `jsIntRoundtrip`, a model of the builtin on
integer-formatted strings (exact at every string the scenarios use), and
`catalog` with catalogs built by `buildBasicDataTypes`, the embedding of the
catalog construction of `typer.ts` lines 59-82 applied to explicit key lists.

The source walks `entities` with `for (const entity of entities)` and recovers
an entity's neighbours through `entities.indexOf(entity)`; since the parser
produces pairwise distinct objects, `indexOf` returns the entity's position, so
the embedding traverses by index `i` and phrases the neighbour lookups of
`shouldIncludeComponent` directly in terms of `i`.
-/

namespace CssTyper

/-- Combinator kinds of the parser interface (`Combinator` enum): `Juxtaposition`
(space), `DoubleAmpersand` (`&&`), `DoubleBar` (`||`), `SingleBar` (`|`). -/
inductive Combinator where
  | Juxtaposition
  | DoubleAmpersand
  | DoubleBar
  | SingleBar
deriving DecidableEq

/-- Multiplier sign enum (`Multiplier` in the source). -/
inductive Multiplier where
  | Asterisk
  | PlusSign
  | QuestionMark
  | HashMark
  | ExclamationPoint
  | QurlyBracet
deriving DecidableEq

/-- A multiplier attached to a component: one of the five sign multipliers, or an
explicit `{min,max}` repetition range (`IMultiplierQurlyBracet`, whose `sign` is
`Multiplier.QurlyBracet` and which additionally carries `min` and `max`). -/
inductive MultiplierType where
  | asterisk
  | plusSign
  | questionMark
  | hashMark
  | exclamationPoint
  | qurlyBracet (min max : Int)
deriving DecidableEq

/-- The `sign` field of a multiplier. -/
def MultiplierType.sign : MultiplierType → Multiplier
  | .asterisk => .Asterisk
  | .plusSign => .PlusSign
  | .questionMark => .QuestionMark
  | .hashMark => .HashMark
  | .exclamationPoint => .ExclamationPoint
  | .qurlyBracet _ _ => .QurlyBracet

/-- `isQurlyBracetMultiplier` (typer.ts lines 269-271): `multiplier.sign === Multiplier.QurlyBracet`. -/
def isQurlyBracetMultiplier (m : MultiplierType) : Bool :=
  m.sign == .QurlyBracet

/-- One grammar entity (`EntityType` of the parser interface): a `Component`
(of kind `Keyword`, `DataType` or `Group`, each with its optional multiplier;
`Keyword`/`DataType` carry their literal text in `value`, `Group` carries a
nested entity sequence), a standalone `Combinator`, or a `Function` term. -/
inductive EntityType where
  | keyword (value : String) (multiplier : Option MultiplierType)
  | dataType (value : String) (multiplier : Option MultiplierType)
  | group (entities : List EntityType) (multiplier : Option MultiplierType)
  | combinator (combinator : Combinator)
  | function

/-- The optional `multiplier` field of a component entity (absent on combinators
and functions, which the source never asks for it). -/
def EntityType.multiplier : EntityType → Option MultiplierType
  | .keyword _ m => m
  | .dataType _ m => m
  | .group _ m => m
  | .combinator _ => none
  | .function => none

/-- `isComponent` (typer.ts lines 261-263): `entity.entity === Entity.Component`. -/
def isComponent : EntityType → Bool
  | .keyword _ _ => true
  | .dataType _ _ => true
  | .group _ _ => true
  | .combinator _ => false
  | .function => false

/-- `isCombinator` (typer.ts lines 265-267): `entity.entity === Entity.Combinator`. -/
def isCombinator : EntityType → Bool
  | .combinator _ => true
  | _ => false

/-- `isFunction` (typer.ts lines 257-259): `entity.entity === Entity.Function`. -/
def isFunction : EntityType → Bool
  | .function => true
  | _ => false

/-- Output type descriptor (`TypeType` in the source, minus the `Alias` variant,
which is produced only by the external resolution stage and never constructed
by `typing`). -/
inductive TypeType where
  | length
  | string
  | number
  | stringLiteral (literal : String)
  | numericLiteral (literal : Int)
  | dataType (name : String)
deriving DecidableEq

/-- A basic (primitive) descriptor, `IBasic` in the source: the values stored in
the basic-data-type catalog. -/
inductive Basic where
  | string
  | number
  | length
deriving DecidableEq

/-- Inclusion of `IBasic` into the descriptor family (in TypeScript, `IBasic`
is literally a subtype of `TypeType`). -/
def Basic.toTypeType : Basic → TypeType
  | .string => .string
  | .number => .number
  | .length => .length

/-- The accumulator state closed over by `typing`'s nested helpers: the ordered
output list `types` plus the three singleton presence flags. -/
structure TState where
  types : List TypeType
  hasLength : Bool
  hasString : Bool
  hasNumber : Bool
deriving DecidableEq

/-- The state at the start of one `typing` call (typer.ts lines 85-88). -/
def TState.init : TState := ⟨[], false, false, false⟩

/-- `addLength` (typer.ts lines 141-148): push a `Length` descriptor unless one
was already pushed. -/
def addLength (st : TState) : TState :=
  if st.hasLength then st
  else { st with types := st.types ++ [.length], hasLength := true }

/-- `addString` (typer.ts lines 150-157): push a `String` descriptor unless one
was already pushed. -/
def addString (st : TState) : TState :=
  if st.hasString then st
  else { st with types := st.types ++ [.string], hasString := true }

/-- `addNumber` (typer.ts lines 159-166): push a `Number` descriptor unless one
was already pushed. -/
def addNumber (st : TState) : TState :=
  if st.hasNumber then st
  else { st with types := st.types ++ [.number], hasNumber := true }

/-- `addStringLiteral` (typer.ts lines 168-175): push a `StringLiteral` unless an
equal literal is already present in `types`. -/
def addStringLiteral (literal : String) (st : TState) : TState :=
  if st.types.all (fun t => match t with | .stringLiteral l => !(l == literal) | _ => true) then
    { st with types := st.types ++ [.stringLiteral literal] }
  else st

/-- `addNumericLiteral` (typer.ts lines 177-184): push a `NumericLiteral` unless
an equal literal is already present in `types`. -/
def addNumericLiteral (literal : Int) (st : TState) : TState :=
  if st.types.all (fun t => match t with | .numericLiteral l => !(l == literal) | _ => true) then
    { st with types := st.types ++ [.numericLiteral literal] }
  else st

/-- `addDataType` (typer.ts lines 186-193): push a `DataType` reference unless
one with the same name is already present in `types`. -/
def addDataType (name : String) (st : TState) : TState :=
  if st.types.all (fun t => match t with | .dataType n => !(n == name) | _ => true) then
    { st with types := st.types ++ [.dataType name] }
  else st

/-- `add` (typer.ts lines 195-222): dispatch a descriptor to the matching
deduplicating push. -/
def add (t : TypeType) (st : TState) : TState :=
  match t with
  | .length => addLength st
  | .string => addString st
  | .number => addNumber st
  | .stringLiteral l => addStringLiteral l st
  | .numericLiteral l => addNumericLiteral l st
  | .dataType n => addDataType n st

/-- `isMandatoryCombinator` (typer.ts lines 273-275):
`combinator === Combinator.DoubleAmpersand || combinator === Combinator.Juxtaposition`. -/
def isMandatoryCombinator (c : Combinator) : Bool :=
  c == .DoubleAmpersand || c == .Juxtaposition

/-- The combined `isCombinator(e) && isMandatoryCombinator(e)` test applied to a
raw entity, as `shouldIncludeComponent` uses it. -/
def isMandatoryCombinatorEntity : EntityType → Bool
  | .combinator c => isMandatoryCombinator c
  | _ => false

/-- `isOptionalComponent`'s multiplier condition (typer.ts lines 277-284):
`(isQurlyBracetMultiplier(m) && m.min > 0) || m.sign === Asterisk || m.sign === QuestionMark`.
For a `qurlyBracet` the sign is `QurlyBracet`, so only the first disjunct can
hold; for a sign multiplier the first disjunct is false. -/
def isOptionalMultiplier : MultiplierType → Bool
  | .qurlyBracet mn _ => decide (0 < mn)
  | m => m.sign == .Asterisk || m.sign == .QuestionMark

/-- `isOptionalComponent` (typer.ts lines 277-284): the component has a
multiplier and that multiplier satisfies the optional-multiplier condition. -/
def isOptionalComponent (c : EntityType) : Bool :=
  match c.multiplier with
  | some m => isOptionalMultiplier m
  | none => false

/-- `previousComponentWasOptional` (typer.ts lines 232-235) for the combinator at
index `ci`: the entity just before it exists, is a component, and is optional. -/
def previousComponentWasOptional (entities : List EntityType) (ci : Nat) : Bool :=
  match ci with
  | 0 => false
  | k + 1 =>
    match entities[k]? with
    | some comp => isComponent comp && isOptionalComponent comp
    | none => false

/-- `nextComponentIsOptional` (typer.ts lines 237-240) for the combinator at
index `ci`: the entity just after it exists, is a component, and is optional. -/
def nextComponentIsOptional (entities : List EntityType) (ci : Nat) : Bool :=
  match entities[ci + 1]? with
  | some comp => isComponent comp && isOptionalComponent comp
  | none => false

/-- The `previousCombinator` half of `shouldIncludeComponent` (typer.ts lines
247-251) for the component at index `i`: if the previous entity exists and is a
mandatory combinator, return `previousComponentWasOptional` of it, else `true`. -/
def shouldIncludePrevious (entities : List EntityType) (i : Nat) : Bool :=
  match i with
  | 0 => true
  | k + 1 =>
    match entities[k]? with
    | some prev =>
      if isMandatoryCombinatorEntity prev then previousComponentWasOptional entities k
      else true
    | none => true

/-- `shouldIncludeComponent` (typer.ts lines 242-252) for the component at index
`i`: if the next entity exists and is a mandatory combinator, return
`nextComponentIsOptional` of it; otherwise fall back to the previous-combinator
half. -/
def shouldIncludeComponent (entities : List EntityType) (i : Nat) : Bool :=
  match entities[i + 1]? with
  | some next =>
    if isMandatoryCombinatorEntity next then nextComponentIsOptional entities (i + 1)
    else shouldIncludePrevious entities i
  | none => shouldIncludePrevious entities i

/-- The group-multiplier condition of the `Group` case (typer.ts lines 113-124):
`entity.multiplier` is present and
`(isQurlyBracetMultiplier(m) && (m.min > 1 || m.max === 1)) || m.sign === Asterisk
|| m.sign === PlusSign || m.sign === HashMark || m.sign === ExclamationPoint`.
For a `qurlyBracet` the sign is `QurlyBracet`, so only the range disjunct can
hold; for a sign multiplier the range disjunct is false. -/
def groupMultiplierAddsString : Option MultiplierType → Bool
  | none => false
  | some (.qurlyBracet mn mx) => decide (1 < mn) || mx == 1
  | some m =>
    m.sign == .Asterisk || m.sign == .PlusSign || m.sign == .HashMark ||
      m.sign == .ExclamationPoint

/-- The `entity.value.slice(1, -1)` of the `DataType` case (typer.ts line 101):
drop the first and the last character. -/
def stripBrackets (v : String) : String :=
  (v.drop 1).dropRight 1

/-- The `value.indexOf("'") === 0` test of the `DataType` case (typer.ts
line 102): the text starts with a single-quote character. -/
def startsWithQuote (v : String) : Bool :=
  v.data.head? == some '\''

/-- The two external ingredients `typing` consults.

`roundtrip v` models the JavaScript expression pair of typer.ts lines 94-95:
it is `some n` when `String(Number(v)) === v` holds with `Number(v) = n`, and
`none` when the round-trip fails (in which case line 97 uses the raw text).

`catalog name` models `name in basicDataTypes` together with
`basicDataTypes[name]` (typer.ts lines 105-106): `some b` when the catalog has
an entry `b` for `name`, `none` otherwise. -/
structure Env where
  roundtrip : String → Option Int
  catalog : String → Option Basic

/-- `typing` (typer.ts lines 84-139) as a fold over the entity list by index
`i`, threading the accumulator `st`. Each entity's contribution (the body of
the `for` loop) is computed and the walk continues at `i + 1`; a `Group`
component recursively types its nested sequence from a fresh state and merges
every resulting descriptor with `add`. -/
def typingGo (env : Env) (entities : List EntityType) (i : Nat) (st : TState) : TState :=
  match h : entities[i]? with
  | none => st
  | some e =>
    typingGo env entities (i + 1)
      (match e with
       | .keyword value _ =>
         if shouldIncludeComponent entities i then
           match env.roundtrip value with
           | some n => addNumericLiteral n st
           | none => addStringLiteral value st
         else st
       | .dataType value _ =>
         if shouldIncludeComponent entities i then
           let inner := stripBrackets value
           if startsWithQuote inner then addString st
           else
             match env.catalog inner with
             | some b => add b.toTypeType st
             | none => addDataType inner st
         else st
       | .group ges gm =>
         if shouldIncludeComponent entities i then
           ((typingGo env ges 0 TState.init).types).foldl (fun s t => add t s)
             (if groupMultiplierAddsString gm then addString st else st)
         else st
       | .combinator c =>
         if c == .DoubleBar || isMandatoryCombinator c then addString st else st
       | .function => addString st)
termination_by (sizeOf entities, entities.length - i)
decreasing_by
  all_goals
    have hlt : i < entities.length := (List.getElem?_eq_some.mp h).1
  · have hget := (List.getElem?_eq_some.mp h).2
    have hm : entities[i] ∈ entities := List.getElem_mem hlt
    rw [hget] at hm
    have h1 := List.sizeOf_lt_of_mem hm
    refine Prod.Lex.left _ _ ?_
    have h2 : sizeOf ges < sizeOf (EntityType.group ges gm) := by
      simp [EntityType.group.sizeOf_spec]
      omega
    omega
  · exact Prod.Lex.right _ (by omega)

/-- `typing` proper: run the walk from index `0` and a fresh state and return
the accumulated descriptor list (typer.ts lines 84-139 and 254). -/
def typing (env : Env) (entities : List EntityType) : List TypeType :=
  (typingGo env entities 0 TState.init).types

/-- The contribution of the single entity `e` sitting at index `i` of
`entities`, with the recursive typing of nested groups abstracted as `recurse`.
`typingGo` performs exactly this step with `recurse := typing env` (see
`typingGo_step`). -/
def entityStep (env : Env) (recurse : List EntityType → List TypeType)
    (entities : List EntityType) (i : Nat) (e : EntityType) (st : TState) : TState :=
  match e with
  | .keyword value _ =>
    if shouldIncludeComponent entities i then
      match env.roundtrip value with
      | some n => addNumericLiteral n st
      | none => addStringLiteral value st
    else st
  | .dataType value _ =>
    if shouldIncludeComponent entities i then
      let inner := stripBrackets value
      if startsWithQuote inner then addString st
      else
        match env.catalog inner with
        | some b => add b.toTypeType st
        | none => addDataType inner st
    else st
  | .group ges gm =>
    if shouldIncludeComponent entities i then
      (recurse ges).foldl (fun s t => add t s)
        (if groupMultiplierAddsString gm then addString st else st)
    else st
  | .combinator c =>
    if c == .DoubleBar || isMandatoryCombinator c then addString st else st
  | .function => addString st

/-- Accumulating decimal parser over a character list: `some` of the value when
every character is a digit, `none` otherwise. -/
def parseDigits : List Char → Nat → Option Nat
  | [], acc => some acc
  | c :: cs, acc =>
    if c.isDigit then parseDigits cs (acc * 10 + (c.toNat - '0'.toNat)) else none

/-- Decimal integer parser over a string: an optional leading minus sign
followed by one or more digits. -/
def jsIntParse (s : String) : Option Int :=
  match s.data with
  | [] => none
  | '-' :: cs =>
    if cs.isEmpty then none
    else (parseDigits cs 0).map (fun n => -(n : Int))
  | cs => (parseDigits cs 0).map (fun n => (n : Int))

/-- Models `String(Number(v)) === v` (and the value `Number(v)`) on the integer
fragment of JavaScript number formatting: the round-trip holds iff `v` parses
as an integer whose canonical decimal rendering is `v` itself. Exact at every
string used by the concrete scenarios below (for example `"0"` and `"auto"`). -/
def jsIntRoundtrip (s : String) : Option Int :=
  match jsIntParse s with
  | some n => if toString n == s then some n else none
  | none => none

/-- An environment with the integer round-trip model and an empty catalog, for
scenarios that never consult the catalog. -/
def jsEnv : Env := ⟨jsIntRoundtrip, fun _ => none⟩

/-- The JavaScript object assignment `dataTypes[name] = basic` on an association
list: replace an existing binding of `name` or append a fresh one. -/
def setKey : List (String × Basic) → String → Basic → List (String × Basic)
  | [], name, b => [(name, b)]
  | entry :: rest, name, b =>
    if entry.1 == name then (name, b) :: rest else entry :: setKey rest name b

/-- Key lookup in the association-list catalog (models both `name in
basicDataTypes` and `basicDataTypes[name]`). -/
def lookupBasic : List (String × Basic) → String → Option Basic
  | [], _ => none
  | entry :: rest, name => if entry.1 == name then some entry.2 else lookupBasic rest name

/-- The per-key classification performed by the `reduce` body of typer.ts lines
62-80: the catalog entry key `name` receives, if any. -/
def catalogClass (synKeys : List String) (name : String) : Option Basic :=
  if name == "number" || name == "integer" then some .number
  else if name == "length" then some .length
  else if synKeys.contains name then none
  else some .string

/-- One step of the catalog `reduce` (typer.ts lines 61-81): perform the
assignment the switch prescribes for `name`, or leave the accumulator unchanged
when the default case's `name in syntaxes` guard fails. -/
def catalogStep (synKeys : List String) (dataTypes : List (String × Basic)) (name : String) :
    List (String × Basic) :=
  if name == "number" || name == "integer" then setKey dataTypes name .number
  else if name == "length" then setKey dataTypes name .length
  else if synKeys.contains name then dataTypes
  else setKey dataTypes name .string

/-- `basicDataTypes` (typer.ts lines 59-82): fold the catalog step over
`[...Object.keys(cssTypes), 'hex-color']`, starting from the empty object.
`typeKeys` models `Object.keys(cssTypes)` and `synKeys` the key set of the
external `syntaxes` table. -/
def buildBasicDataTypes (typeKeys synKeys : List String) : List (String × Basic) :=
  (typeKeys ++ ["hex-color"]).foldl (catalogStep synKeys) []

/-- A small concrete catalog built by the source's construction rule, used by
concrete scenarios: `color` is a composite syntax rule, the others are basic. -/
def sampleCatalog (name : String) : Option Basic :=
  lookupBasic (buildBasicDataTypes ["number", "integer", "length", "color", "angle"] ["color"]) name

/-- An environment with the integer round-trip model and the sample catalog. -/
def jsSampleEnv : Env := ⟨jsIntRoundtrip, sampleCatalog⟩

/-- Claim wording of the optional-multiplier test: a multiplier is optional
exactly when it is a `QurlyBracet` with `min > 0`, or its sign is `Asterisk` or
`QuestionMark`. -/
def specOptionalMultiplier : MultiplierType → Bool
  | .qurlyBracet mn _ => decide (0 < mn)
  | .asterisk => true
  | .questionMark => true
  | .plusSign => false
  | .hashMark => false
  | .exclamationPoint => false

/-- Claim wording of being a component whose own multiplier marks it optional. -/
def specOptionalComponent (e : EntityType) : Bool :=
  isComponent e &&
    (match e.multiplier with
     | some m => specOptionalMultiplier m
     | none => false)

/-- Claim wording of the fallback half of the inclusion filter: if the previous
entity exists and is a mandatory combinator, include iff the entity immediately
before that combinator is a component with an optional multiplier; otherwise
include unconditionally. -/
def specPreviousFilter (entities : List EntityType) (i : Nat) : Bool :=
  match i with
  | 0 => true
  | k + 1 =>
    match entities[k]? with
    | some (.combinator c) =>
      if c == .Juxtaposition || c == .DoubleAmpersand then
        match k with
        | 0 => false
        | j + 1 =>
          match entities[j]? with
          | some before => specOptionalComponent before
          | none => false
      else true
    | _ => true

/-- Claim wording of the full inclusion filter for the component at index `i`:
if the next entity exists and is a mandatory combinator (`Juxtaposition` or
`DoubleAmpersand`), include iff the entity immediately after that combinator is
a component with an optional multiplier; otherwise fall back to the previous
half. -/
def specIncludeFilter (entities : List EntityType) (i : Nat) : Bool :=
  match entities[i + 1]? with
  | some (.combinator c) =>
    if c == .Juxtaposition || c == .DoubleAmpersand then
      match entities[i + 1 + 1]? with
      | some after => specOptionalComponent after
      | none => false
    else specPreviousFilter entities i
  | _ => specPreviousFilter entities i

/-- Claim wording of the group-multiplier rule: the group's multiplier is a
`QurlyBracet` with `min > 1` or `max == 1`, or its sign is `Asterisk`,
`PlusSign`, `HashMark` or `ExclamationPoint`. -/
def specGroupAddsString : Option MultiplierType → Bool
  | none => false
  | some (.qurlyBracet mn mx) => decide (1 < mn) || mx == 1
  | some .asterisk => true
  | some .plusSign => true
  | some .hashMark => true
  | some .exclamationPoint => true
  | some .questionMark => false

/-- The accumulator invariant maintained by every `add` operation: the output
list holds no duplicates, and a cleared singleton flag certifies the matching
singleton descriptor is absent. -/
def InvS (st : TState) : Prop :=
  st.types.Nodup ∧
    (st.hasString = false → TypeType.string ∉ st.types) ∧
    (st.hasNumber = false → TypeType.number ∉ st.types) ∧
    (st.hasLength = false → TypeType.length ∉ st.types)

/-- Past the end of the sequence the walk stops and returns the state. -/
theorem typingGo_stop (env : Env) (entities : List EntityType) (i : Nat) (st : TState)
    (h : entities[i]? = none) : typingGo env entities i st = st := by
  rw [typingGo.eq_def]
  split
  · rfl
  · rename_i e heq
    rw [h] at heq
    exact absurd heq (by simp)

/-- One step of the walk: the entity at index `i` contributes `entityStep` (with
the recursive typing of nested groups performed by `typing env`) and the walk
continues at `i + 1`. -/
theorem typingGo_step (env : Env) (entities : List EntityType) (i : Nat) (st : TState)
    (e : EntityType) (h : entities[i]? = some e) :
    typingGo env entities i st =
      typingGo env entities (i + 1) (entityStep env (typing env) entities i e st) := by
  conv_lhs => rw [typingGo.eq_def]
  split
  · rename_i heq
    rw [h] at heq
    exact absurd heq (by simp)
  · rename_i e' heq
    rw [h] at heq
    cases heq
    cases e <;> rfl

theorem nodup_push {l : List TypeType} {a : TypeType} (hl : l.Nodup) (ha : a ∉ l) :
    (l ++ [a]).Nodup := by
  simp [List.nodup_append, hl, ha]

theorem not_mem_of_all_stringLiteral {l : List TypeType} {s : String}
    (h : l.all (fun t => match t with | .stringLiteral x => !(x == s) | _ => true) = true) :
    TypeType.stringLiteral s ∉ l := by
  intro hmem
  have := List.all_eq_true.mp h _ hmem
  simp at this

theorem not_mem_of_all_numericLiteral {l : List TypeType} {s : Int}
    (h : l.all (fun t => match t with | .numericLiteral x => !(x == s) | _ => true) = true) :
    TypeType.numericLiteral s ∉ l := by
  intro hmem
  have := List.all_eq_true.mp h _ hmem
  simp at this

theorem not_mem_of_all_dataType {l : List TypeType} {s : String}
    (h : l.all (fun t => match t with | .dataType x => !(x == s) | _ => true) = true) :
    TypeType.dataType s ∉ l := by
  intro hmem
  have := List.all_eq_true.mp h _ hmem
  simp at this

theorem invS_addLength (st : TState) (h : InvS st) : InvS (addLength st) := by
  obtain ⟨hnd, hs, hn, hl⟩ := h
  unfold addLength
  split
  · exact ⟨hnd, hs, hn, hl⟩
  · rename_i hflag
    have hmem : TypeType.length ∉ st.types := hl (by revert hflag; cases st.hasLength <;> simp)
    refine ⟨nodup_push hnd hmem, ?_, ?_, ?_⟩ <;> intro hfl <;> simp_all

theorem invS_addString (st : TState) (h : InvS st) : InvS (addString st) := by
  obtain ⟨hnd, hs, hn, hl⟩ := h
  unfold addString
  split
  · exact ⟨hnd, hs, hn, hl⟩
  · rename_i hflag
    have hmem : TypeType.string ∉ st.types := hs (by revert hflag; cases st.hasString <;> simp)
    refine ⟨nodup_push hnd hmem, ?_, ?_, ?_⟩ <;> intro hfl <;> simp_all

theorem invS_addNumber (st : TState) (h : InvS st) : InvS (addNumber st) := by
  obtain ⟨hnd, hs, hn, hl⟩ := h
  unfold addNumber
  split
  · exact ⟨hnd, hs, hn, hl⟩
  · rename_i hflag
    have hmem : TypeType.number ∉ st.types := hn (by revert hflag; cases st.hasNumber <;> simp)
    refine ⟨nodup_push hnd hmem, ?_, ?_, ?_⟩ <;> intro hfl <;> simp_all

theorem invS_addStringLiteral (s : String) (st : TState) (h : InvS st) :
    InvS (addStringLiteral s st) := by
  obtain ⟨hnd, hs, hn, hl⟩ := h
  unfold addStringLiteral
  split
  · rename_i hall
    refine ⟨nodup_push hnd (not_mem_of_all_stringLiteral hall), ?_, ?_, ?_⟩ <;>
      intro hfl <;> simp_all
  · exact ⟨hnd, hs, hn, hl⟩

theorem invS_addNumericLiteral (s : Int) (st : TState) (h : InvS st) :
    InvS (addNumericLiteral s st) := by
  obtain ⟨hnd, hs, hn, hl⟩ := h
  unfold addNumericLiteral
  split
  · rename_i hall
    refine ⟨nodup_push hnd (not_mem_of_all_numericLiteral hall), ?_, ?_, ?_⟩ <;>
      intro hfl <;> simp_all
  · exact ⟨hnd, hs, hn, hl⟩

theorem invS_addDataType (s : String) (st : TState) (h : InvS st) :
    InvS (addDataType s st) := by
  obtain ⟨hnd, hs, hn, hl⟩ := h
  unfold addDataType
  split
  · rename_i hall
    refine ⟨nodup_push hnd (not_mem_of_all_dataType hall), ?_, ?_, ?_⟩ <;>
      intro hfl <;> simp_all
  · exact ⟨hnd, hs, hn, hl⟩

theorem invS_add (t : TypeType) (st : TState) (h : InvS st) : InvS (add t st) := by
  cases t with
  | length => exact invS_addLength st h
  | string => exact invS_addString st h
  | number => exact invS_addNumber st h
  | stringLiteral s => exact invS_addStringLiteral s st h
  | numericLiteral s => exact invS_addNumericLiteral s st h
  | dataType s => exact invS_addDataType s st h

theorem invS_foldl (ts : List TypeType) (st : TState) (h : InvS st) :
    InvS (ts.foldl (fun s t => add t s) st) := by
  induction ts generalizing st with
  | nil => exact h
  | cons t ts ih => exact ih _ (invS_add t st h)

theorem invS_entityStep (env : Env) (recurse : List EntityType → List TypeType)
    (entities : List EntityType) (i : Nat) (e : EntityType) (st : TState) (h : InvS st) :
    InvS (entityStep env recurse entities i e st) := by
  cases e with
  | keyword v m =>
    simp only [entityStep]
    split
    · split
      · exact invS_addNumericLiteral _ st h
      · exact invS_addStringLiteral _ st h
    · exact h
  | dataType v m =>
    simp only [entityStep]
    split
    · split
      · exact invS_addString st h
      · split
        · exact invS_add _ st h
        · exact invS_addDataType _ st h
    · exact h
  | group ges gm =>
    simp only [entityStep]
    split
    · refine invS_foldl _ _ ?_
      split
      · exact invS_addString st h
      · exact h
    · exact h
  | combinator c =>
    simp only [entityStep]
    split
    · exact invS_addString st h
    · exact h
  | function => exact invS_addString st h

theorem invS_init : InvS TState.init := by
  simp [InvS, TState.init]

theorem typingGo_invS (n : Nat) (env : Env) (entities : List EntityType) (i : Nat) (st : TState)
    (hle : entities.length - i ≤ n) (hinv : InvS st) : InvS (typingGo env entities i st) := by
  induction n generalizing i st with
  | zero =>
    have hnone : entities[i]? = none := List.getElem?_eq_none (by omega)
    rw [typingGo_stop _ _ _ _ hnone]
    exact hinv
  | succ n ih =>
    cases h : entities[i]? with
    | none =>
      rw [typingGo_stop _ _ _ _ h]
      exact hinv
    | some e =>
      rw [typingGo_step _ _ _ _ _ h]
      have hlt : i < entities.length := (List.getElem?_eq_some.mp h).1
      exact ih (i + 1) _ (by omega) (invS_entityStep _ _ _ _ _ _ hinv)

theorem prefix_addLength (st : TState) : st.types <+: (addLength st).types := by
  unfold addLength
  split
  · exact List.prefix_refl _
  · exact List.prefix_append _ _

theorem prefix_addString (st : TState) : st.types <+: (addString st).types := by
  unfold addString
  split
  · exact List.prefix_refl _
  · exact List.prefix_append _ _

theorem prefix_addNumber (st : TState) : st.types <+: (addNumber st).types := by
  unfold addNumber
  split
  · exact List.prefix_refl _
  · exact List.prefix_append _ _

theorem prefix_addStringLiteral (s : String) (st : TState) :
    st.types <+: (addStringLiteral s st).types := by
  unfold addStringLiteral
  split
  · exact List.prefix_append _ _
  · exact List.prefix_refl _

theorem prefix_addNumericLiteral (s : Int) (st : TState) :
    st.types <+: (addNumericLiteral s st).types := by
  unfold addNumericLiteral
  split
  · exact List.prefix_append _ _
  · exact List.prefix_refl _

theorem prefix_addDataType (s : String) (st : TState) :
    st.types <+: (addDataType s st).types := by
  unfold addDataType
  split
  · exact List.prefix_append _ _
  · exact List.prefix_refl _

theorem prefix_add (t : TypeType) (st : TState) : st.types <+: (add t st).types := by
  cases t with
  | length => exact prefix_addLength st
  | string => exact prefix_addString st
  | number => exact prefix_addNumber st
  | stringLiteral s => exact prefix_addStringLiteral s st
  | numericLiteral s => exact prefix_addNumericLiteral s st
  | dataType s => exact prefix_addDataType s st

theorem prefix_foldl (ts : List TypeType) (st : TState) :
    st.types <+: (ts.foldl (fun s t => add t s) st).types := by
  induction ts generalizing st with
  | nil => exact List.prefix_refl _
  | cons t ts ih => exact (prefix_add t st).trans (ih (add t st))

theorem prefix_entityStep (env : Env) (recurse : List EntityType → List TypeType)
    (entities : List EntityType) (i : Nat) (e : EntityType) (st : TState) :
    st.types <+: (entityStep env recurse entities i e st).types := by
  cases e with
  | keyword v m =>
    simp only [entityStep]
    split
    · split
      · exact prefix_addNumericLiteral _ st
      · exact prefix_addStringLiteral _ st
    · exact List.prefix_refl _
  | dataType v m =>
    simp only [entityStep]
    split
    · split
      · exact prefix_addString st
      · split
        · exact prefix_add _ st
        · exact prefix_addDataType _ st
    · exact List.prefix_refl _
  | group ges gm =>
    simp only [entityStep]
    split
    · refine List.IsPrefix.trans ?_ (prefix_foldl _ _)
      split
      · exact prefix_addString st
      · exact List.prefix_refl _
    · exact List.prefix_refl _
  | combinator c =>
    simp only [entityStep]
    split
    · exact prefix_addString st
    · exact List.prefix_refl _
  | function => exact prefix_addString st

theorem typingGo_prefix (n : Nat) (env : Env) (entities : List EntityType) (i : Nat) (st : TState)
    (hle : entities.length - i ≤ n) : st.types <+: (typingGo env entities i st).types := by
  induction n generalizing i st with
  | zero =>
    have hnone : entities[i]? = none := List.getElem?_eq_none (by omega)
    rw [typingGo_stop _ _ _ _ hnone]
  | succ n ih =>
    cases h : entities[i]? with
    | none => rw [typingGo_stop _ _ _ _ h]
    | some e =>
      rw [typingGo_step _ _ _ _ _ h]
      have hlt : i < entities.length := (List.getElem?_eq_some.mp h).1
      exact (prefix_entityStep env (typing env) entities i e st).trans
        (ih (i + 1) _ (by omega))

theorem add_of_mem (st : TState) (t : TypeType) (hinv : InvS st) (hmem : t ∈ st.types) :
    add t st = st := by
  obtain ⟨hnd, hs, hn, hl⟩ := hinv
  cases t with
  | string =>
    have hflag : st.hasString = true := by
      by_contra hc
      exact hs (by revert hc; cases st.hasString <;> simp) hmem
    simp [add, addString, hflag]
  | number =>
    have hflag : st.hasNumber = true := by
      by_contra hc
      exact hn (by revert hc; cases st.hasNumber <;> simp) hmem
    simp [add, addNumber, hflag]
  | length =>
    have hflag : st.hasLength = true := by
      by_contra hc
      exact hl (by revert hc; cases st.hasLength <;> simp) hmem
    simp [add, addLength, hflag]
  | stringLiteral s =>
    simp only [add, addStringLiteral]
    rw [if_neg (fun hall => absurd hmem (not_mem_of_all_stringLiteral hall))]
  | numericLiteral s =>
    simp only [add, addNumericLiteral]
    rw [if_neg (fun hall => absurd hmem (not_mem_of_all_numericLiteral hall))]
  | dataType s =>
    simp only [add, addDataType]
    rw [if_neg (fun hall => absurd hmem (not_mem_of_all_dataType hall))]

theorem isOptionalMultiplier_eq_spec (m : MultiplierType) :
    isOptionalMultiplier m = specOptionalMultiplier m := by
  cases m <;> rfl

theorem optionalComponent_eq_spec (e : EntityType) :
    (isComponent e && isOptionalComponent e) = specOptionalComponent e := by
  cases e <;>
    simp [isComponent, isOptionalComponent, specOptionalComponent, EntityType.multiplier] <;>
    rename_i m _ <;> cases m <;> simp [isOptionalMultiplier_eq_spec]

theorem previousComponentWasOptional_eq_spec (entities : List EntityType) (k : Nat) :
    previousComponentWasOptional entities k =
      (match k with
       | 0 => false
       | j + 1 =>
         match entities[j]? with
         | some before => specOptionalComponent before
         | none => false) := by
  cases k with
  | zero => rfl
  | succ j =>
    simp only [previousComponentWasOptional]
    cases h : entities[j]? with
    | none => rfl
    | some before => simp [optionalComponent_eq_spec]

theorem shouldIncludePrevious_eq_spec (entities : List EntityType) (i : Nat) :
    shouldIncludePrevious entities i = specPreviousFilter entities i := by
  cases i with
  | zero => rfl
  | succ k =>
    simp only [shouldIncludePrevious, specPreviousFilter]
    cases h : entities[k]? with
    | none => rfl
    | some prev =>
      cases prev with
      | combinator c =>
        cases c <;>
          simp [isMandatoryCombinatorEntity, isMandatoryCombinator,
            previousComponentWasOptional_eq_spec]
      | keyword v m => rfl
      | dataType v m => rfl
      | group g m => rfl
      | function => rfl

theorem shouldIncludeComponent_eq_spec (entities : List EntityType) (i : Nat) :
    shouldIncludeComponent entities i = specIncludeFilter entities i := by
  simp only [shouldIncludeComponent, specIncludeFilter]
  cases h : entities[i + 1]? with
  | none => exact shouldIncludePrevious_eq_spec entities i
  | some next =>
    cases next with
    | combinator c =>
      cases c <;>
        simp [isMandatoryCombinatorEntity, isMandatoryCombinator, nextComponentIsOptional,
          shouldIncludePrevious_eq_spec] <;>
        (cases h2 : entities[i + 1 + 1]? with
         | none => rfl
         | some after => simp [optionalComponent_eq_spec])
    | keyword v m => simp [isMandatoryCombinatorEntity, shouldIncludePrevious_eq_spec]
    | dataType v m => simp [isMandatoryCombinatorEntity, shouldIncludePrevious_eq_spec]
    | group g m => simp [isMandatoryCombinatorEntity, shouldIncludePrevious_eq_spec]
    | function => simp [isMandatoryCombinatorEntity, shouldIncludePrevious_eq_spec]

theorem entityStep_excluded (env : Env) (recurse : List EntityType → List TypeType)
    (entities : List EntityType) (i : Nat) (e : EntityType) (st : TState)
    (hcomp : isComponent e = true) (hexc : shouldIncludeComponent entities i = false) :
    entityStep env recurse entities i e st = st := by
  cases e with
  | keyword v m => simp [entityStep, hexc]
  | dataType v m => simp [entityStep, hexc]
  | group g m => simp [entityStep, hexc]
  | combinator c => simp [isComponent] at hcomp
  | function => simp [isComponent] at hcomp

theorem lookup_setKey (m : List (String × Basic)) (k : String) (v : Basic) (n : String) :
    lookupBasic (setKey m k v) n = if n = k then some v else lookupBasic m n := by
  induction m with
  | nil =>
    simp only [setKey, lookupBasic, beq_iff_eq]
    by_cases h2 : n = k
    · subst h2; simp
    · rw [if_neg (fun hh => h2 hh.symm), if_neg h2]
  | cons e rest ih =>
    by_cases h2 : n = k
    · subst h2
      rw [if_pos rfl]
      simp only [setKey, beq_iff_eq]
      split_ifs with h1
      · simp [lookupBasic]
      · simp only [lookupBasic, beq_iff_eq]
        rw [if_neg h1, ih, if_pos rfl]
    · rw [if_neg h2]
      simp only [setKey, beq_iff_eq]
      split_ifs with h1
      · simp only [lookupBasic, beq_iff_eq]
        have hkn : ¬k = n := fun hh => h2 hh.symm
        have h1n : ¬e.1 = n := by rw [h1]; exact hkn
        rw [if_neg hkn, if_neg h1n]
      · simp only [lookupBasic, beq_iff_eq, ih]
        rw [if_neg h2]

theorem catalogStep_eq (sk : List String) (m : List (String × Basic)) (name : String) :
    catalogStep sk m name =
      (match catalogClass sk name with
       | some b => setKey m name b
       | none => m) := by
  unfold catalogStep catalogClass
  split_ifs <;> rfl

theorem lookup_catalogStep (sk : List String) (m : List (String × Basic)) (name n : String) :
    lookupBasic (catalogStep sk m name) n =
      if n = name ∧ (catalogClass sk name).isSome then catalogClass sk name
      else lookupBasic m n := by
  rw [catalogStep_eq]
  cases hcc : catalogClass sk name with
  | none => simp [hcc]
  | some b =>
    simp only [hcc, lookup_setKey, Option.isSome_some, and_true]

theorem lookup_foldl_catalogStep (keys : List String) (sk : List String)
    (m : List (String × Basic)) (n : String) :
    lookupBasic (keys.foldl (catalogStep sk) m) n =
      if n ∈ keys ∧ (catalogClass sk n).isSome then catalogClass sk n
      else lookupBasic m n := by
  induction keys generalizing m with
  | nil => simp
  | cons key rest ih =>
    simp only [List.foldl_cons, ih, lookup_catalogStep, List.mem_cons]
    by_cases h1 : n = key
    · subst h1
      by_cases h2 : (catalogClass sk n).isSome <;> simp [h2]
    · by_cases h2 : n ∈ rest <;> simp [h1, h2]

theorem lookup_buildBasicDataTypes (typeKeys synKeys : List String) (name : String) :
    lookupBasic (buildBasicDataTypes typeKeys synKeys) name =
      if name ∈ typeKeys ++ ["hex-color"] then catalogClass synKeys name else none := by
  unfold buildBasicDataTypes
  rw [lookup_foldl_catalogStep]
  by_cases hm : name ∈ typeKeys ++ ["hex-color"]
  · cases hcc : catalogClass synKeys name with
    | none => simp [hm, hcc, lookupBasic]
    | some b => simp [hm, hcc]
  · simp [hm, lookupBasic]

/-- Claim C1: a component's descriptors enter the output exactly under the
inclusion filter, and the filter is: if the next entity exists and is a
mandatory combinator (`Juxtaposition` or `DoubleAmpersand`), include iff the
entity just after that combinator is a component with an optional multiplier;
otherwise, if the previous entity exists and is a mandatory combinator, include
iff the entity just before that combinator is a component with an optional
multiplier; otherwise include unconditionally — where optional means a
`QurlyBracet` with `min > 0` or a sign of `Asterisk` or `QuestionMark`.
The first conjunct identifies the source filter with the claim's wording; the
second shows that a component rejected by the filter contributes nothing. -/
theorem inclusion_filter_matches_spec :
    (∀ (entities : List EntityType) (i : Nat),
        shouldIncludeComponent entities i = specIncludeFilter entities i) ∧
    (∀ (env : Env) (entities : List EntityType) (i : Nat) (e : EntityType) (st : TState),
        entities[i]? = some e → isComponent e = true →
        shouldIncludeComponent entities i = false →
        typingGo env entities i st = typingGo env entities (i + 1) st) := by
  refine ⟨shouldIncludeComponent_eq_spec, ?_⟩
  intro env entities i e st h hc hx
  rw [typingGo_step _ _ _ _ _ h, entityStep_excluded _ _ _ _ _ _ hc hx]

/-- Witness for claim C1 at a concrete input: the filter agrees with its spec
wording on a small sequence, and the keyword before a mandatory `Juxtaposition`
followed by a non-optional component is skipped entirely. -/
theorem inclusion_filter_matches_spec_witness :
    shouldIncludeComponent
        [EntityType.keyword "a" none, EntityType.combinator .Juxtaposition,
          EntityType.keyword "x" none] 0 =
      specIncludeFilter
        [EntityType.keyword "a" none, EntityType.combinator .Juxtaposition,
          EntityType.keyword "x" none] 0 ∧
    typingGo jsEnv
        [EntityType.keyword "a" none, EntityType.combinator .Juxtaposition,
          EntityType.keyword "x" none] 0 TState.init =
      typingGo jsEnv
        [EntityType.keyword "a" none, EntityType.combinator .Juxtaposition,
          EntityType.keyword "x" none] (0 + 1) TState.init :=
  ⟨inclusion_filter_matches_spec.1 _ 0,
    inclusion_filter_matches_spec.2 jsEnv _ 0 (EntityType.keyword "a" none) TState.init rfl
      (by decide) (by decide)⟩

/-- Claim C2: an included `Group` component adds the generic `String` descriptor
iff its multiplier is a `QurlyBracet` with `min > 1` or `max == 1`, or has sign
`Asterisk`, `PlusSign`, `HashMark` or `ExclamationPoint` (`QuestionMark` and
the other `QurlyBracet` ranges add nothing); afterwards every descriptor of the
recursive typing of the nested sequence is merged via the deduplicating `add`.
The scenario conjunct is the group-with-`Asterisk` example. -/
theorem group_component_rule :
    (∀ gm : Option MultiplierType, groupMultiplierAddsString gm = specGroupAddsString gm) ∧
    (∀ (env : Env) (entities : List EntityType) (i : Nat) (ges : List EntityType)
        (gm : Option MultiplierType) (st : TState),
        entities[i]? = some (.group ges gm) → shouldIncludeComponent entities i = true →
        typingGo env entities i st =
          typingGo env entities (i + 1)
            ((typing env ges).foldl (fun s t => add t s)
              (if groupMultiplierAddsString gm then addString st else st))) ∧
    typing jsEnv [.group [.keyword "a" none] (some .asterisk)] =
      [.string, .stringLiteral "a"] := by
  refine ⟨?_, ?_, ?_⟩
  · intro gm
    match gm with
    | none => rfl
    | some .asterisk => rfl
    | some .plusSign => rfl
    | some .questionMark => rfl
    | some .hashMark => rfl
    | some .exclamationPoint => rfl
    | some (.qurlyBracet mn mx) => rfl
  · intro env entities i ges gm st h hinc
    rw [typingGo_step _ _ _ _ _ h]
    simp [entityStep, hinc]
  · have inner : typing jsEnv [.keyword "a" none] = [.stringLiteral "a"] := by
      rw [typing, typingGo_step _ _ _ _ (EntityType.keyword "a" none) rfl,
        typingGo_stop _ _ _ _ rfl]
      decide
    rw [typing,
      typingGo_step _ _ _ _ (EntityType.group [.keyword "a" none] (some .asterisk)) rfl,
      typingGo_stop _ _ _ _ rfl]
    simp only [entityStep]
    rw [inner]
    decide

/-- Witness for claim C2 at a concrete input: the group step of the
`[Group*[Keyword "a"]]` sequence merges the recursive typing onto the state
obtained by first adding `String`. -/
theorem group_component_rule_witness :
    typingGo jsEnv [.group [.keyword "a" none] (some .asterisk)] 0 TState.init =
      typingGo jsEnv [.group [.keyword "a" none] (some .asterisk)] (0 + 1)
        ((typing jsEnv [.keyword "a" none]).foldl (fun s t => add t s)
          (if groupMultiplierAddsString (some .asterisk) then addString TState.init
           else TState.init)) :=
  group_component_rule.2.1 jsEnv _ 0 [.keyword "a" none] (some .asterisk) TState.init rfl
    (by decide)

/-- Claim C3: a standalone combinator adds the generic `String` descriptor
(subject to dedup) iff it is `DoubleBar`, `Juxtaposition` or `DoubleAmpersand`,
and `SingleBar` adds nothing; the scenario conjunct is
`typing [Keyword "auto", DoubleBar, Keyword "none"]`. -/
theorem combinator_rule :
    (∀ (env : Env) (entities : List EntityType) (i : Nat) (c : Combinator) (st : TState),
        entities[i]? = some (.combinator c) →
        typingGo env entities i st =
          typingGo env entities (i + 1)
            (if c == .DoubleBar || isMandatoryCombinator c then addString st else st)) ∧
    (∀ c : Combinator,
        (c == .DoubleBar || isMandatoryCombinator c) =
          (c == .DoubleBar || c == .Juxtaposition || c == .DoubleAmpersand)) ∧
    (∀ (env : Env) (entities : List EntityType) (i : Nat) (st : TState),
        entities[i]? = some (.combinator .SingleBar) →
        typingGo env entities i st = typingGo env entities (i + 1) st) ∧
    typing jsEnv [.keyword "auto" none, .combinator .DoubleBar, .keyword "none" none] =
      [.stringLiteral "auto", .string, .stringLiteral "none"] := by
  refine ⟨?_, ?_, ?_, ?_⟩
  · intro env entities i c st h
    rw [typingGo_step _ _ _ _ _ h]
    exact rfl
  · intro c
    cases c <;> rfl
  · intro env entities i st h
    rw [typingGo_step _ _ _ _ _ h]
    exact rfl
  · rw [typing,
      typingGo_step _ _ _ _ (EntityType.keyword "auto" none) rfl,
      typingGo_step _ _ _ _ (EntityType.combinator .DoubleBar) rfl,
      typingGo_step _ _ _ _ (EntityType.keyword "none" none) rfl,
      typingGo_stop _ _ _ _ rfl]
    decide

/-- Witness for claim C3 at a concrete input: a lone `DoubleBar` combinator
steps the state through the `addString` branch. -/
theorem combinator_rule_witness :
    typingGo jsEnv [.combinator .DoubleBar] 0 TState.init =
      typingGo jsEnv [.combinator .DoubleBar] (0 + 1)
        (if Combinator.DoubleBar == .DoubleBar || isMandatoryCombinator .DoubleBar then
           addString TState.init
         else TState.init) :=
  combinator_rule.1 jsEnv _ 0 .DoubleBar TState.init rfl

/-- Claim C4: an included `Keyword` component adds `NumericLiteral` of the
parsed number when the numeric round-trip reproduces the text, and
`StringLiteral` of the raw text otherwise; the scenario conjuncts are
`typing [Keyword "0"] = [NumericLiteral 0]` and
`typing [Keyword "auto"] = [StringLiteral "auto"]`. -/
theorem keyword_component_rule :
    (∀ (env : Env) (entities : List EntityType) (i : Nat) (v : String)
        (m : Option MultiplierType) (st : TState),
        entities[i]? = some (.keyword v m) → shouldIncludeComponent entities i = true →
        typingGo env entities i st =
          typingGo env entities (i + 1)
            (match env.roundtrip v with
             | some n => addNumericLiteral n st
             | none => addStringLiteral v st)) ∧
    typing jsEnv [.keyword "0" none] = [.numericLiteral 0] ∧
    typing jsEnv [.keyword "auto" none] = [.stringLiteral "auto"] := by
  refine ⟨?_, ?_, ?_⟩
  · intro env entities i v m st h hinc
    rw [typingGo_step _ _ _ _ _ h]
    simp [entityStep, hinc]
  · rw [typing, typingGo_step _ _ _ _ (EntityType.keyword "0" none) rfl,
      typingGo_stop _ _ _ _ rfl]
    decide
  · rw [typing, typingGo_step _ _ _ _ (EntityType.keyword "auto" none) rfl,
      typingGo_stop _ _ _ _ rfl]
    decide

/-- Witness for claim C4 at a concrete input: the keyword `"0"` is dispatched
through the numeric round-trip of the environment. -/
theorem keyword_component_rule_witness :
    typingGo jsEnv [.keyword "0" none] 0 TState.init =
      typingGo jsEnv [.keyword "0" none] (0 + 1)
        (match jsEnv.roundtrip "0" with
         | some n => addNumericLiteral n TState.init
         | none => addStringLiteral "0" TState.init) :=
  keyword_component_rule.1 jsEnv _ 0 "0" none TState.init rfl (by decide)

/-- Claim C5: an included `DataType` component strips the first and last
character of its value, then adds generic `String` if the remaining text starts
with a single quote, else the catalog entry's primitive descriptor if the name
is a catalog key, else a `DataType` reference with that name. The scenario
conjuncts exercise a catalog hit (`<length>`) and a catalog miss (`<color>`,
which the sample catalog excludes as a composite syntax rule). -/
theorem dataType_component_rule :
    (∀ (env : Env) (entities : List EntityType) (i : Nat) (v : String)
        (m : Option MultiplierType) (st : TState),
        entities[i]? = some (.dataType v m) → shouldIncludeComponent entities i = true →
        typingGo env entities i st =
          typingGo env entities (i + 1)
            (if startsWithQuote (stripBrackets v) then addString st
             else
               match env.catalog (stripBrackets v) with
               | some b => add b.toTypeType st
               | none => addDataType (stripBrackets v) st)) ∧
    typing jsSampleEnv [.dataType "<length>" none] = [.length] ∧
    typing jsSampleEnv [.dataType "<color>" none] = [.dataType "color"] := by
  refine ⟨?_, ?_, ?_⟩
  · intro env entities i v m st h hinc
    rw [typingGo_step _ _ _ _ _ h]
    simp [entityStep, hinc]
  · rw [typing, typingGo_step _ _ _ _ (EntityType.dataType "<length>" none) rfl,
      typingGo_stop _ _ _ _ rfl]
    decide
  · rw [typing, typingGo_step _ _ _ _ (EntityType.dataType "<color>" none) rfl,
      typingGo_stop _ _ _ _ rfl]
    decide

/-- Witness for claim C5 at a concrete input: the `<length>` data type is
dispatched through the stripped name and the catalog of the environment. -/
theorem dataType_component_rule_witness :
    typingGo jsSampleEnv [.dataType "<length>" none] 0 TState.init =
      typingGo jsSampleEnv [.dataType "<length>" none] (0 + 1)
        (if startsWithQuote (stripBrackets "<length>") then addString TState.init
         else
           match jsSampleEnv.catalog (stripBrackets "<length>") with
           | some b => add b.toTypeType TState.init
           | none => addDataType (stripBrackets "<length>") TState.init) :=
  dataType_component_rule.1 jsSampleEnv _ 0 "<length>" none TState.init rfl (by decide)

/-- Claim C6: the output of `typing` never contains two structurally equal
descriptors — in particular at most one `String`, `Number` and `Length`, and no
repeated `StringLiteral` literal, `NumericLiteral` literal or `DataType` name,
since equal descriptors are exactly those with equal variant and fields. -/
theorem typing_descriptor_dedup (env : Env) (entities : List EntityType) :
    (typing env entities).Nodup :=
  (typingGo_invS entities.length env entities 0 TState.init (by omega) invS_init).1

/-- Claim C7: descriptors appear in first-encounter order: the walk only ever
appends to the accumulated list (so the output extends the state left to right,
with a nested group's descriptors merged at the group's position), and adding a
descriptor that is already present leaves the state — order included —
untouched. -/
theorem typing_order_preservation :
    (∀ (env : Env) (entities : List EntityType) (i : Nat) (st : TState),
        st.types <+: (typingGo env entities i st).types) ∧
    (∀ (st : TState) (t : TypeType), InvS st → t ∈ st.types → add t st = st) := by
  constructor
  · intro env entities i st
    exact typingGo_prefix (entities.length - i) env entities i st (le_refl _)
  · intro st t hinv hmem
    exact add_of_mem st t hinv hmem

/-- Witness for claim C7 at a concrete input: a state that already contains the
`String` descriptor absorbs a second `String` without change. -/
theorem typing_order_preservation_witness :
    TState.init.types <+: (typingGo jsEnv [.combinator .DoubleBar] 0 TState.init).types ∧
    add TypeType.string ⟨[TypeType.string], false, true, false⟩ =
      ⟨[TypeType.string], false, true, false⟩ :=
  ⟨typing_order_preservation.1 jsEnv [.combinator .DoubleBar] 0 TState.init,
    typing_order_preservation.2 ⟨[TypeType.string], false, true, false⟩ TypeType.string
      (by unfold InvS; decide) (by decide)⟩

/-- Claim C8: the basic-data-type catalog is the fold of the classification rule
over the external type keys plus the hard-coded `hex-color`: `number` and
`integer` map to `Number`, `length` to `Length`, every other listed key not
itself defined in the syntaxes table to `String`, keys defined in the syntaxes
table get no entry, and keys never listed get none; in particular `hex-color`
maps to `String` whenever the syntaxes table does not define it. -/
theorem basicDataTypes_catalog_rule :
    (∀ (typeKeys synKeys : List String) (name : String),
        lookupBasic (buildBasicDataTypes typeKeys synKeys) name =
          if name ∈ typeKeys ++ ["hex-color"] then catalogClass synKeys name else none) ∧
    (∀ typeKeys synKeys : List String,
        lookupBasic (buildBasicDataTypes typeKeys synKeys) "hex-color" =
          if synKeys.contains "hex-color" then none else some .string) := by
  refine ⟨lookup_buildBasicDataTypes, ?_⟩
  intro tk sk
  rw [lookup_buildBasicDataTypes, if_pos (by simp)]
  unfold catalogClass
  rw [if_neg (by decide), if_neg (by decide)]

/-- Claim C9: `typing` is total — the Lean embedding is a terminating function
whose recursion descends only into strictly nested group sequences, so every
entity tree yields a descriptor list — and the unsupported shapes degrade to
the generic `String` descriptor: function entities, quote-prefixed data types,
`DoubleBar`/mandatory combinators, and repeated groups (which prepend `String`
before the recursive merge). -/
theorem typing_total_and_degrades :
    (∀ (env : Env) (entities : List EntityType), ∃ ts : List TypeType, typing env entities = ts) ∧
    (∀ (env : Env) (entities : List EntityType) (i : Nat) (st : TState),
        entities[i]? = some .function →
        typingGo env entities i st = typingGo env entities (i + 1) (addString st)) ∧
    (∀ (env : Env) (entities : List EntityType) (i : Nat) (v : String)
        (m : Option MultiplierType) (st : TState),
        entities[i]? = some (.dataType v m) → shouldIncludeComponent entities i = true →
        startsWithQuote (stripBrackets v) = true →
        typingGo env entities i st = typingGo env entities (i + 1) (addString st)) ∧
    (∀ (env : Env) (entities : List EntityType) (i : Nat) (c : Combinator) (st : TState),
        entities[i]? = some (.combinator c) →
        (c == .DoubleBar || isMandatoryCombinator c) = true →
        typingGo env entities i st = typingGo env entities (i + 1) (addString st)) ∧
    (∀ (env : Env) (entities : List EntityType) (i : Nat) (ges : List EntityType)
        (gm : Option MultiplierType) (st : TState),
        entities[i]? = some (.group ges gm) → shouldIncludeComponent entities i = true →
        groupMultiplierAddsString gm = true →
        typingGo env entities i st =
          typingGo env entities (i + 1)
            ((typing env ges).foldl (fun s t => add t s) (addString st))) := by
  refine ⟨fun env entities => ⟨typing env entities, rfl⟩, ?_, ?_, ?_, ?_⟩
  · intro env entities i st h
    rw [typingGo_step _ _ _ _ _ h]
    exact rfl
  · intro env entities i v m st h hinc hq
    rw [typingGo_step _ _ _ _ _ h]
    simp [entityStep, hinc, hq]
  · intro env entities i c st h hc
    rw [typingGo_step _ _ _ _ _ h]
    simp [entityStep, hc]
  · intro env entities i ges gm st h hinc hgm
    rw [typingGo_step _ _ _ _ _ h]
    simp [entityStep, hinc, hgm]

/-- Witness for claim C9 at concrete inputs: a function entity contributes
`String`, and so does a quote-prefixed data type. -/
theorem typing_total_and_degrades_witness :
    typingGo jsEnv [.function] 0 TState.init =
      typingGo jsEnv [.function] (0 + 1) (addString TState.init) ∧
    typingGo jsEnv [.dataType (String.mk ['<', '\'', 'a', '>']) none] 0 TState.init =
      typingGo jsEnv [.dataType (String.mk ['<', '\'', 'a', '>']) none] (0 + 1)
        (addString TState.init) :=
  ⟨typing_total_and_degrades.2.1 jsEnv _ 0 TState.init rfl,
    typing_total_and_degrades.2.2.1 jsEnv _ 0 (String.mk ['<', '\'', 'a', '>']) none
      TState.init rfl (by decide) (by decide)⟩

/-- Claim C10: a `Group` component rejected by the inclusion filter contributes
nothing at all — neither its multiplier's `String` nor any descriptor of its
nested sequence — because the recursive descent happens only for included
components. -/
theorem excluded_group_adds_nothing (env : Env) (entities : List EntityType) (i : Nat)
    (ges : List EntityType) (gm : Option MultiplierType) (st : TState)
    (h : entities[i]? = some (.group ges gm))
    (hexc : shouldIncludeComponent entities i = false) :
    typingGo env entities i st = typingGo env entities (i + 1) st := by
  rw [typingGo_step _ _ _ _ _ h,
    entityStep_excluded env (typing env) entities i (EntityType.group ges gm) st rfl hexc]

/-- Witness for claim C10 at a concrete input: a starred group before a
mandatory `DoubleAmpersand` followed by a non-optional component is skipped
without contributing its `String` or its nested keyword. -/
theorem excluded_group_adds_nothing_witness :
    typingGo jsEnv
        [.group [.keyword "b" none] (some .asterisk), .combinator .DoubleAmpersand,
          .keyword "x" none] 0 TState.init =
      typingGo jsEnv
        [.group [.keyword "b" none] (some .asterisk), .combinator .DoubleAmpersand,
          .keyword "x" none] (0 + 1) TState.init :=
  excluded_group_adds_nothing jsEnv _ 0 [.keyword "b" none] (some .asterisk) TState.init rfl
    (by decide)

end CssTyper
